import Mathlib

/-!
Shallow embedding of src/app/main.py: the fetch-retry loop
(fetch_api_data), the DataFrame normalization with per-column type
coercion (process_orders_dataframe, process_inventory_dataframe), the
Google Sheets upload step (upload_to_google_sheets) and the orchestrating
pipeline (process_orders, process_inventory, main).
-/

/-- Outcome of one GET attempt inside fetch_api_data: the request either
succeeds at transport level and parses, fails at transport level (a
RequestException, which includes non-2xx statuses via raise_for_status),
succeeds at transport level with a 2xx status but fails to parse as JSON
(response.json raises ValueError), or fails in an unclassified way
(any other exception). -/
inductive AttemptOutcome (α : Type) where
  | success (payload : α)
  | transportError
  | parseError
  | otherError
deriving DecidableEq

/-- Error class logged when fetch_api_data gives up: retry exhaustion
(the max-retries-reached error log), a malformed JSON body, or an
unexpected error. -/
inductive FetchErrorKind where
  | exhausted
  | malformed
  | unexpected
deriving DecidableEq

/-- Observable event of one run of fetch_api_data: a GET attempt with its
zero-based index, or a time.sleep of the given duration. -/
inductive FetchEvent where
  | attempt (i : Nat)
  | sleep (d : Nat)
deriving DecidableEq

/-- What a run of fetch_api_data does: the ordered attempt and sleep
events, the returned value (none is the failure sentinel returned at the
end of the function), and the error class logged when it failed. -/
structure FetchTrace (α : Type) where
  events : List FetchEvent
  result : Option α
  errorKind : Option FetchErrorKind
deriving DecidableEq

/-- Loop body of fetch_api_data. The oracle gives the outcome of the GET
on each zero-based attempt index. A transport-level failure on a
non-final attempt sleeps retry_delay and continues; on the final attempt
it logs the exhaustion error and falls out of the loop. A parse failure
or an unexpected failure breaks out of the loop at once. The events
accumulator is kept reversed. -/
def fetchAux {α : Type} (oracle : Nat → AttemptOutcome α) (retry_delay : Nat) :
    Nat → Nat → List FetchEvent → FetchTrace α
  | 0, _, evs => ⟨evs.reverse, none, none⟩
  | remaining + 1, attempt, evs =>
    let evs' := FetchEvent.attempt attempt :: evs
    match oracle attempt with
    | AttemptOutcome.success p => ⟨evs'.reverse, some p, none⟩
    | AttemptOutcome.transportError =>
      if remaining = 0 then
        ⟨evs'.reverse, none, some FetchErrorKind.exhausted⟩
      else
        fetchAux oracle retry_delay remaining (attempt + 1)
          (FetchEvent.sleep retry_delay :: evs')
    | AttemptOutcome.parseError => ⟨evs'.reverse, none, some FetchErrorKind.malformed⟩
    | AttemptOutcome.otherError => ⟨evs'.reverse, none, some FetchErrorKind.unexpected⟩

/-- fetch_api_data from src/app/main.py, lines 75 to 114: run the attempt
loop for max_retries iterations starting at attempt index 0. -/
def fetch_api_data {α : Type} (oracle : Nat → AttemptOutcome α)
    (max_retries retry_delay : Nat) : FetchTrace α :=
  fetchAux oracle retry_delay max_retries 0 []

/-- The event sequence of a run in which every attempt fails at transport
level: attempts at consecutive indices starting at i, with one sleep of
the fixed delay between consecutive attempts and none after the last. -/
def retrySchedule (d : Nat) : Nat → Nat → List FetchEvent
  | _, 0 => []
  | i, 1 => [FetchEvent.attempt i]
  | i, n + 2 => FetchEvent.attempt i :: FetchEvent.sleep d :: retrySchedule d (i + 1) (n + 1)

/-- Number of attempt events in an event list. -/
def countAttempts : List FetchEvent → Nat
  | [] => 0
  | FetchEvent.attempt _ :: es => countAttempts es + 1
  | FetchEvent.sleep _ :: es => countAttempts es

/-- Number of sleep events in an event list. -/
def countSleeps : List FetchEvent → Nat
  | [] => 0
  | FetchEvent.attempt _ :: es => countSleeps es
  | FetchEvent.sleep _ :: es => countSleeps es + 1

theorem countAttempts_retrySchedule (d : Nat) :
    (n i : Nat) → countAttempts (retrySchedule d i n) = n
  | 0, _ => by simp [retrySchedule, countAttempts]
  | 1, _ => by simp [retrySchedule, countAttempts]
  | n + 2, i => by
    have ih := countAttempts_retrySchedule d (n + 1) (i + 1)
    simp [retrySchedule, countAttempts, ih]

theorem countSleeps_retrySchedule (d : Nat) :
    (n i : Nat) → countSleeps (retrySchedule d i n) = n - 1
  | 0, _ => by simp [retrySchedule, countSleeps]
  | 1, _ => by simp [retrySchedule, countSleeps]
  | n + 2, i => by
    have ih := countSleeps_retrySchedule d (n + 1) (i + 1)
    simp [retrySchedule, countSleeps, ih]

theorem fetchAux_all_transport {α : Type} (oracle : Nat → AttemptOutcome α)
    (d : Nat) (hall : ∀ j, oracle j = AttemptOutcome.transportError) :
    (n : Nat) → 1 ≤ n → ∀ (i : Nat) (evs : List FetchEvent),
      fetchAux oracle d n i evs =
        ⟨evs.reverse ++ retrySchedule d i n, none, some FetchErrorKind.exhausted⟩
  | 0, h, _, _ => absurd h (by decide)
  | 1, _, i, evs => by
    simp [fetchAux, hall i, retrySchedule]
  | n + 2, _, i, evs => by
    have ih := fetchAux_all_transport oracle d hall (n + 1) (by omega) (i + 1)
      (FetchEvent.sleep d :: FetchEvent.attempt i :: evs)
    rw [fetchAux]
    simp only [hall i]
    rw [if_neg (by omega : ¬ n + 1 = 0)]
    rw [ih]
    simp [retrySchedule]

/-- C1. A fetch whose GET succeeds with a 2xx status but whose body fails
to parse as JSON makes exactly one attempt (the trace is a single attempt
event with no sleeps), returns the failure sentinel at once, and its
logged error class is the malformed-response one, distinct from the
retry-exhaustion class. -/
theorem fetch_malformed_single_attempt {α : Type} (oracle : Nat → AttemptOutcome α)
    (max_retries retry_delay : Nat) (hmax : 1 ≤ max_retries)
    (hmal : oracle 0 = AttemptOutcome.parseError) :
    fetch_api_data oracle max_retries retry_delay =
      ⟨[FetchEvent.attempt 0], none, some FetchErrorKind.malformed⟩ ∧
    (fetch_api_data oracle max_retries retry_delay).errorKind ≠
      some FetchErrorKind.exhausted := by
  obtain ⟨m, rfl⟩ : ∃ m, max_retries = m + 1 := ⟨max_retries - 1, by omega⟩
  refine ⟨?_, ?_⟩ <;> simp [fetch_api_data, fetchAux, hmal]

theorem fetch_malformed_single_attempt_witness :
    fetch_api_data (fun _ => (AttemptOutcome.parseError : AttemptOutcome Nat)) 3 5 =
      ⟨[FetchEvent.attempt 0], none, some FetchErrorKind.malformed⟩ :=
  (fetch_malformed_single_attempt (fun _ => (AttemptOutcome.parseError : AttemptOutcome Nat))
    3 5 (by decide) rfl).1

/-- C2. For every max_retries at least 1, if every attempt fails at
transport level then fetch_api_data makes exactly max_retries attempts
with one fixed-delay sleep between consecutive attempts and none after
the last (its events are the retry schedule, with max_retries attempt
events and max_retries minus one sleep events), and it returns the
failure sentinel with the retry-exhaustion error class. -/
theorem fetch_transport_exhaustion {α : Type} (oracle : Nat → AttemptOutcome α)
    (max_retries retry_delay : Nat) (hmax : 1 ≤ max_retries)
    (hall : ∀ j, oracle j = AttemptOutcome.transportError) :
    fetch_api_data oracle max_retries retry_delay =
      ⟨retrySchedule retry_delay 0 max_retries, none, some FetchErrorKind.exhausted⟩ ∧
    countAttempts (fetch_api_data oracle max_retries retry_delay).events = max_retries ∧
    countSleeps (fetch_api_data oracle max_retries retry_delay).events = max_retries - 1 := by
  have h := fetchAux_all_transport oracle retry_delay hall max_retries hmax 0 []
  refine ⟨?_, ?_, ?_⟩ <;>
    simp [fetch_api_data, h, countAttempts_retrySchedule, countSleeps_retrySchedule]

theorem fetch_transport_exhaustion_witness :
    fetch_api_data (fun _ => (AttemptOutcome.transportError : AttemptOutcome Nat)) 3 2 =
      ⟨[FetchEvent.attempt 0, FetchEvent.sleep 2, FetchEvent.attempt 1,
        FetchEvent.sleep 2, FetchEvent.attempt 2], none,
        some FetchErrorKind.exhausted⟩ := by
  have h := (fetch_transport_exhaustion
    (fun _ => (AttemptOutcome.transportError : AttemptOutcome Nat)) 3 2 (by decide)
    (fun _ => rfl)).1
  simpa [retrySchedule] using h

/-- A cell of a pandas DataFrame as this program uses it: a string, an
integer, or the NaN placeholder a missing field produces. -/
inductive Cell where
  | str (s : String)
  | int (n : Int)
  | na
deriving DecidableEq

/-- The two target dtypes the conversion tables of the program use. -/
inductive Dtype where
  | dtInt
  | dtStr
deriving DecidableEq

/-- The whitespace characters int strips around its argument (the ASCII
repertoire of the Python definition of whitespace). -/
def isPySpace (c : Char) : Bool :=
  c = ' ' || c = '\t' || c = '\n' || c = '\x0d' || c = '\x0b' || c = '\x0c'

/-- Leading and trailing int whitespace removed. -/
def stripSpaces (l : List Char) : List Char :=
  ((l.dropWhile isPySpace).reverse.dropWhile isPySpace).reverse

/-- Digits after the first one, with single underscores allowed strictly
between digits, folded onto the accumulator; any other shape fails. -/
def digitsRest (acc : Nat) : List Char → Option Nat
  | [] => some acc
  | '_' :: c :: cs =>
    if c.isDigit then digitsRest (acc * 10 + (c.toNat - 48)) cs else none
  | c :: cs =>
    if c.isDigit then digitsRest (acc * 10 + (c.toNat - 48)) cs else none

/-- A nonempty digit group: a digit followed by digits with single
underscores between them, as the int literal grammar allows. -/
def digitsParse : List Char → Option Nat
  | [] => none
  | c :: cs => if c.isDigit then digitsRest (c.toNat - 48) cs else none

/-- Python int applied to a string, over the ASCII repertoire: optional
surrounding whitespace, an optional single sign, then decimal digits
with single underscore separators; anything else raises ValueError,
modelled as none. (int also accepts non-ASCII decimal numerals and
whitespace; the normalization theorems below therefore carry an
all-ASCII payload hypothesis, inside which this model is exact.) -/
def parseInt (s : String) : Option Int :=
  match stripSpaces s.toList with
  | [] => none
  | '-' :: rest => (digitsParse rest).map (fun n => -(n : Int))
  | '+' :: rest => (digitsParse rest).map (fun n => (n : Int))
  | l => (digitsParse l).map (fun n => (n : Int))

/-- The bounds of int64, the dtype astype(int) converts to. -/
def int64Min : Int := -(2 ^ 63)

/-- The upper bound of int64. -/
def int64Max : Int := 2 ^ 63 - 1

/-- Whether an integer value fits in int64. -/
def fitsInt64 (n : Int) : Bool := int64Min ≤ n && n ≤ int64Max

/-- Outcome of casting one cell: a converted cell; a ValueError or
TypeError, which the inner handler of the conversion loop catches; or an
OverflowError, which that handler does not catch. -/
inductive CastOutcome where
  | ok (c : Cell)
  | castFail
  | overflow
deriving DecidableEq

/-- The cell a cast outcome delivers, none when the cast raised. -/
def castOutcomeCell : CastOutcome → Option Cell
  | CastOutcome.ok c => some c
  | CastOutcome.castFail => none
  | CastOutcome.overflow => none

/-- One-cell cast of astype. Casting to int targets int64: a string cell
is parsed with the int grammar and range-checked, an unparseable string
or NaN raises ValueError or TypeError (castFail), and a parsed or given
integer beyond the int64 range raises OverflowError (overflow). Casting
to str always succeeds, rendering integers in decimal and NaN as the
text nan. -/
def castCell : Dtype → Cell → CastOutcome
  | Dtype.dtInt, Cell.int n =>
    if fitsInt64 n then CastOutcome.ok (Cell.int n) else CastOutcome.overflow
  | Dtype.dtInt, Cell.str s =>
    match parseInt s with
    | none => CastOutcome.castFail
    | some n =>
      if fitsInt64 n then CastOutcome.ok (Cell.int n) else CastOutcome.overflow
  | Dtype.dtInt, Cell.na => CastOutcome.castFail
  | Dtype.dtStr, Cell.int n => CastOutcome.ok (Cell.str (toString n))
  | Dtype.dtStr, Cell.str s => CastOutcome.ok (Cell.str s)
  | Dtype.dtStr, Cell.na => CastOutcome.ok (Cell.str "nan")

/-- A DataFrame column: its name and its cells in row order. -/
abbrev Column := String × List Cell

/-- The cells of the column with the given name, none when no column has
that name; this is the read side of the df bracket indexing. -/
def lookupColumn (cols : List Column) (c : String) : Option (List Cell) :=
  (cols.find? fun col => col.1 = c).map Prod.snd

/-- Replace the cells of the column with the given name, keeping column
order; this is the write side of the df bracket indexing. -/
def setColumn (cols : List Column) (c : String) (cells : List Cell) : List Column :=
  cols.map fun col => if col.1 = c then (col.1, cells) else col

/-- Outcome of astype over a whole column: every cell converted, or the
exception class of the first failing cell, which aborts the whole astype
call before anything is assigned back. -/
inductive ColumnCast where
  | ok (cells : List Cell)
  | castFail
  | overflow
deriving DecidableEq

/-- Series.astype over a whole column: cells are cast in order and the
first raising cell decides the exception class of the whole call. -/
def castColumn (d : Dtype) : List Cell → ColumnCast
  | [] => ColumnCast.ok []
  | x :: xs =>
    match castCell d x with
    | CastOutcome.castFail => ColumnCast.castFail
    | CastOutcome.overflow => ColumnCast.overflow
    | CastOutcome.ok y =>
      match castColumn d xs with
      | ColumnCast.ok ys => ColumnCast.ok (y :: ys)
      | ColumnCast.castFail => ColumnCast.castFail
      | ColumnCast.overflow => ColumnCast.overflow

/-- Log line emitted by one iteration of the conversion loop: the success
info line, the failure warning, or the column-not-found info line. -/
inductive ConvLog where
  | convertedOk (c : String)
  | convertFailed (c : String)
  | columnMissing (c : String)
deriving DecidableEq

/-- The conversion loop shared by process_orders_dataframe and
process_inventory_dataframe: for each entry of the conversion table in
order, skip with an info line when the column is absent, replace the
column when the astype succeeds, and keep the original column with one
warning when astype raises ValueError or TypeError, the classes the
inner handler catches. When astype raises OverflowError instead, no
handler inside the loop matches: the exception escapes the loop at once
(first component none), to be caught by the outer handler of the
enclosing function. Returns the final columns (none when aborted) and
the log lines emitted before returning. -/
def applyConversions : List Column → List (String × Dtype) →
    Option (List Column) × List ConvLog
  | cols, [] => (some cols, [])
  | cols, (c, d) :: rest =>
    match lookupColumn cols c with
    | none =>
      let r := applyConversions cols rest
      (r.1, ConvLog.columnMissing c :: r.2)
    | some cells =>
      match castColumn d cells with
      | ColumnCast.ok newCells =>
        let r := applyConversions (setColumn cols c newCells) rest
        (r.1, ConvLog.convertedOk c :: r.2)
      | ColumnCast.castFail =>
        let r := applyConversions cols rest
        (r.1, ConvLog.convertFailed c :: r.2)
      | ColumnCast.overflow => (none, [])

/-- A DataFrame: named columns in order, each carrying its cells in row
order. -/
structure DataFrame where
  cols : List Column
deriving DecidableEq

/-- Number of rows: the length of the first column, zero when there are
no columns. -/
def DataFrame.nrows (df : DataFrame) : Nat :=
  match df.cols with
  | [] => 0
  | c :: _ => c.2.length

/-- df.empty of pandas: no columns or no rows. -/
def DataFrame.isEmpty (df : DataFrame) : Bool :=
  df.cols.isEmpty || df.nrows == 0

/-- Shared body of process_orders_dataframe and
process_inventory_dataframe after the DataFrame is built: return the
none sentinel when the DataFrame is empty, otherwise run the conversion
loop and return the resulting DataFrame together with the conversion
log. When the loop was aborted by an escaping OverflowError, the outer
except Exception handler of the function logs the error and returns the
none sentinel. -/
def normalize_dataframe (df : DataFrame) (conversions : List (String × Dtype)) :
    Option DataFrame × List ConvLog :=
  if df.isEmpty then (none, [])
  else
    match applyConversions df.cols conversions with
    | (some cols2, logs) => (some ⟨cols2⟩, logs)
    | (none, logs) => (none, logs)

/-- The conversion table of process_orders_dataframe. -/
def orders_conversions : List (String × Dtype) :=
  [("order_id", Dtype.dtStr), ("store_id", Dtype.dtInt), ("quantity", Dtype.dtInt)]

/-- The conversion table of process_inventory_dataframe. -/
def inventory_conversions : List (String × Dtype) :=
  [("store_id", Dtype.dtInt), ("quantity", Dtype.dtInt)]

/-- A record of the JSON payload: field names with their values. -/
abbrev Record := List (String × Cell)

/-- The raw payload: an ordered list of records. -/
abbrev Payload := List Record

/-- The value a record contributes to a column: its field of that name,
or NaN when the field is absent. -/
def lookupField (r : Record) (k : String) : Cell :=
  ((r.find? fun f => f.1 = k).map Prod.snd).getD Cell.na

/-- Accumulate keys in first-seen order, skipping ones already seen. -/
def seenKeys (acc : List String) : List String → List String
  | [] => acc
  | k :: ks => if acc.contains k then seenKeys acc ks else seenKeys (acc ++ [k]) ks

/-- Column names of the DataFrame built from a payload: field names in
first-seen order across the records. -/
def payloadKeys (data : Payload) : List String :=
  data.foldl (fun acc r => seenKeys acc (r.map Prod.fst)) []

/-- pandas DataFrame construction from a list of records: one column per
field name in first-seen order, one row per record, missing fields
filled with NaN. -/
def toDataFrame (data : Payload) : DataFrame :=
  ⟨(payloadKeys data).map fun k => (k, data.map fun r => lookupField r k)⟩

/-- process_orders_dataframe from src/app/main.py, lines 117 to 160:
build the DataFrame from the raw orders data, return the none sentinel
when it is empty, and apply the orders conversion table. -/
def process_orders_dataframe (data : Payload) : Option DataFrame × List ConvLog :=
  normalize_dataframe (toDataFrame data) orders_conversions

/-- process_inventory_dataframe from src/app/main.py, lines 163 to 205:
the same with the inventory conversion table. -/
def process_inventory_dataframe (data : Payload) : Option DataFrame × List ConvLog :=
  normalize_dataframe (toDataFrame data) inventory_conversions

/-- Per-kind pipeline body shared by process_orders and process_inventory
from src/app/main.py, lines 298 to 381: return false when the fetch
returned the none sentinel, return false when the normalizer returned the
none sentinel, otherwise return the upload flag. -/
def process_kind (fetched : Option Payload)
    (normalizer : Payload → Option DataFrame × List ConvLog)
    (upload : DataFrame → Bool) : Bool :=
  match fetched with
  | none => false
  | some data =>
    match (normalizer data).1 with
    | none => false
    | some df => upload df

/-- process_orders, parameterized by the fetch outcome and the upload
step. -/
def process_orders (fetched : Option Payload) (upload : DataFrame → Bool) : Bool :=
  process_kind fetched process_orders_dataframe upload

/-- process_inventory, parameterized by the fetch outcome and the upload
step. -/
def process_inventory (fetched : Option Payload) (upload : DataFrame → Bool) : Bool :=
  process_kind fetched process_inventory_dataframe upload

/-- main from src/app/main.py, lines 384 to 421: run the orders pipeline,
then run the inventory pipeline on the world the orders pipeline left
behind, and return the conjunction of the two flags. The world argument
threads whatever external state the pipelines affect. -/
def main_run {σ : Type} (orders inventory : σ → σ × Bool) (s : σ) : σ × Bool :=
  let r1 := orders s
  let r2 := inventory r1.1
  (r2.1, r1.2 && r2.2)

/-- C4. main runs the inventory pipeline on the state the orders pipeline
left regardless of the orders flag, so both pipelines always run, and the
overall flag it returns is the conjunction of the per-kind flags. -/
theorem main_runs_both_and_aggregates {σ : Type} (orders inventory : σ → σ × Bool)
    (s s1 s2 : σ) (b1 b2 : Bool) (h1 : orders s = (s1, b1))
    (h2 : inventory s1 = (s2, b2)) :
    main_run orders inventory s = (s2, b1 && b2) := by
  simp [main_run, h1, h2]

theorem main_runs_both_and_aggregates_witness :
    main_run (fun t => (t ++ ["orders"], false)) (fun t => (t ++ ["inventory"], true))
      ([] : List String) = (["orders", "inventory"], false) :=
  main_runs_both_and_aggregates _ _ _ ["orders"] ["orders", "inventory"] false true rfl rfl

/-- C5. A payload whose derived DataFrame has zero rows makes the
normalizer return the none sentinel rather than a zero-row DataFrame,
and the per-kind pipeline then returns false for that kind: a terminal
failure for the run, not a raised exception. -/
theorem normalize_empty_returns_sentinel (data : Payload)
    (h : (toDataFrame data).nrows = 0) :
    (process_orders_dataframe data).1 = none ∧
    (process_inventory_dataframe data).1 = none ∧
    (∀ upload, process_orders (some data) upload = false) ∧
    (∀ upload, process_inventory (some data) upload = false) := by
  have hempty : (toDataFrame data).isEmpty = true := by
    simp [DataFrame.isEmpty, h]
  have h1 : (process_orders_dataframe data).1 = none := by
    simp [process_orders_dataframe, normalize_dataframe, hempty]
  have h2 : (process_inventory_dataframe data).1 = none := by
    simp [process_inventory_dataframe, normalize_dataframe, hempty]
  refine ⟨h1, h2, fun upload => ?_, fun upload => ?_⟩
  · simp [process_orders, process_kind, h1]
  · simp [process_inventory, process_kind, h2]

theorem normalize_empty_returns_sentinel_witness :
    (process_orders_dataframe ([] : Payload)).1 = none ∧
    process_orders (some ([] : Payload)) (fun _ => true) = false := by
  have h := normalize_empty_returns_sentinel ([] : Payload) (by decide)
  exact ⟨h.1, h.2.2.1 (fun _ => true)⟩

/-- The net effect of the conversion table on a column with the given
name, on runs the overflow path does not abort: unchanged when the table
does not name it, the cast result when its astype succeeds, unchanged
when it fails. -/
def convEffect (conversions : List (String × Dtype)) (x : String) (cells : List Cell) :
    List Cell :=
  match conversions.find? fun cv => cv.1 = x with
  | none => cells
  | some cv =>
    match castColumn cv.2 cells with
    | ColumnCast.ok newCells => newCells
    | ColumnCast.castFail => cells
    | ColumnCast.overflow => cells

/-- The log line one iteration of the conversion loop emits, as a
function of the columns at that iteration. -/
def logOf (cols : List Column) (cv : String × Dtype) : ConvLog :=
  match lookupColumn cols cv.1 with
  | none => ConvLog.columnMissing cv.1
  | some cells =>
    match castColumn cv.2 cells with
    | ColumnCast.ok _ => ConvLog.convertedOk cv.1
    | ColumnCast.castFail => ConvLog.convertFailed cv.1
    | ColumnCast.overflow => ConvLog.convertFailed cv.1

/-- An ASCII character. -/
def asciiChar (c : Char) : Bool := c.toNat < 128

/-- A cell whose text, if any, is all ASCII: the repertoire on which the
int model above is exact. -/
def asciiCell : Cell → Bool
  | Cell.str s => s.toList.all asciiChar
  | Cell.int _ => true
  | Cell.na => true

/-- A payload all of whose field values are ASCII cells. -/
def payloadAscii (data : Payload) : Bool :=
  data.all fun r => r.all fun f => asciiCell f.2

/-- No entry of the conversion table raises the uncaught OverflowError
on these columns. -/
def noOverflow (cols : List Column) (conversions : List (String × Dtype)) : Bool :=
  conversions.all fun cv =>
    match lookupColumn cols cv.1 with
    | none => true
    | some cells => decide (castColumn cv.2 cells ≠ ColumnCast.overflow)

/-- Occurrences of a log line in a log. -/
def countLog (x : ConvLog) : List ConvLog → Nat
  | [] => 0
  | y :: ys => (if y = x then 1 else 0) + countLog x ys

theorem setColumn_map_fst (cols : List Column) (c : String) (cells : List Cell) :
    (setColumn cols c cells).map Prod.fst = cols.map Prod.fst := by
  induction cols with
  | nil => rfl
  | cons col rest ih =>
    by_cases h : col.1 = c
    · simpa [setColumn, h] using ih
    · simpa [setColumn, h] using ih

theorem lookupColumn_cons (col : Column) (cols : List Column) (c : String) :
    lookupColumn (col :: cols) c =
      if col.1 = c then some col.2 else lookupColumn cols c := by
  by_cases h : col.1 = c <;> simp [lookupColumn, h]

theorem lookupColumn_setColumn_ne (cols : List Column) (c x : String)
    (cells : List Cell) (hx : x ≠ c) :
    lookupColumn (setColumn cols c cells) x = lookupColumn cols x := by
  induction cols with
  | nil => rfl
  | cons col rest ih =>
    have hs : setColumn (col :: rest) c cells =
        (if col.1 = c then (col.1, cells) else col) :: setColumn rest c cells := rfl
    by_cases h : col.1 = c
    · have hcx : ¬ col.1 = x := fun hh => hx (hh ▸ h)
      have hcx2 : ¬ c = x := fun hh => hx hh.symm
      simp [hs, lookupColumn_cons, h, hcx, hcx2, ih]
    · simp [hs, lookupColumn_cons, h, ih]

theorem lookupColumn_eq_none (cols : List Column) (c : String)
    (h : lookupColumn cols c = none) : ∀ col ∈ cols, col.1 ≠ c := by
  intro col hmem
  have hf : (cols.find? fun col => col.1 = c) = none := by
    cases hf : cols.find? fun col => col.1 = c with
    | none => rfl
    | some a => simp [lookupColumn, hf] at h
  have := List.find?_eq_none.mp hf col hmem
  simpa using this

theorem lookupColumn_of_mem_nodup (cols : List Column)
    (hnd : (cols.map Prod.fst).Nodup) :
    ∀ col ∈ cols, lookupColumn cols col.1 = some col.2 := by
  induction cols with
  | nil => intro col h; cases h
  | cons hd rest ih =>
    intro col hmem
    simp only [List.map_cons, List.nodup_cons] at hnd
    obtain ⟨hh, hndr⟩ := hnd
    rcases List.mem_cons.mp hmem with rfl | hmemr
    · simp [lookupColumn_cons]
    · have hne : hd.1 ≠ col.1 := fun he =>
        hh (he ▸ List.mem_map_of_mem Prod.fst hmemr)
      simp [lookupColumn_cons, hne, ih hndr col hmemr]

theorem lookupColumn_map_effect (cols : List Column)
    (g : String → List Cell → List Cell) (x : String) :
    lookupColumn (cols.map fun col => (col.1, g col.1 col.2)) x =
      (lookupColumn cols x).map (g x) := by
  induction cols with
  | nil => rfl
  | cons col rest ih =>
    by_cases h : col.1 = x
    · simp [lookupColumn_cons, h]
    · simp [lookupColumn_cons, h, ih]

theorem noOverflow_cons (cols : List Column) (cv : String × Dtype)
    (rest : List (String × Dtype)) (h : noOverflow cols (cv :: rest) = true) :
    noOverflow cols rest = true ∧
    ∀ cells, lookupColumn cols cv.1 = some cells →
      castColumn cv.2 cells ≠ ColumnCast.overflow := by
  unfold noOverflow at h
  rw [List.all_cons, Bool.and_eq_true] at h
  obtain ⟨h1, h2⟩ := h
  refine ⟨h2, ?_⟩
  intro cells hcells
  simp only [hcells] at h1
  exact of_decide_eq_true h1

theorem noOverflow_setColumn (cols : List Column) (c : String) (newCells : List Cell)
    (rest : List (String × Dtype)) (hc : c ∉ rest.map Prod.fst)
    (h : noOverflow cols rest = true) :
    noOverflow (setColumn cols c newCells) rest = true := by
  unfold noOverflow at h ⊢
  rw [List.all_eq_true] at h ⊢
  intro cv hmem
  have hne : cv.1 ≠ c := fun hh => hc (hh ▸ List.mem_map_of_mem Prod.fst hmem)
  rw [lookupColumn_setColumn_ne cols c cv.1 newCells hne]
  exact h cv hmem

theorem find?_conv_of_mem_nodup (conversions : List (String × Dtype)) (c : String)
    (d : Dtype) (hnd : (conversions.map Prod.fst).Nodup)
    (hmem : (c, d) ∈ conversions) :
    (conversions.find? fun cv => cv.1 = c) = some (c, d) := by
  induction conversions with
  | nil => cases hmem
  | cons cv rest ih =>
    simp only [List.map_cons, List.nodup_cons] at hnd
    obtain ⟨hh, hndr⟩ := hnd
    rcases List.mem_cons.mp hmem with rfl | hmemr
    · simp
    · have hne : cv.1 ≠ c := fun he =>
        hh (he ▸ List.mem_map_of_mem Prod.fst hmemr)
      simp [hne, ih hndr hmemr]

theorem convEffect_not_mem (conversions : List (String × Dtype)) (x : String)
    (hx : x ∉ conversions.map Prod.fst) (cells : List Cell) :
    convEffect conversions x cells = cells := by
  have hf : (conversions.find? fun cv => cv.1 = x) = none := by
    rw [List.find?_eq_none]
    intro cv hmem
    simp only [decide_eq_true_eq]
    intro hh
    exact hx (hh ▸ List.mem_map_of_mem Prod.fst hmem)
  simp [convEffect, hf]

theorem convEffect_cons_ne (c : String) (d : Dtype)
    (rest : List (String × Dtype)) (x : String) (hx : x ≠ c) (cells : List Cell) :
    convEffect ((c, d) :: rest) x cells = convEffect rest x cells := by
  have hcx : ¬ c = x := fun hh => hx hh.symm
  unfold convEffect
  rw [List.find?_cons_of_neg _ (by simp [hcx])]

theorem castColumn_length (d : Dtype) :
    ∀ cells newCells, castColumn d cells = ColumnCast.ok newCells →
      newCells.length = cells.length := by
  intro cells
  induction cells with
  | nil =>
    intro newCells h
    simp only [castColumn, ColumnCast.ok.injEq] at h
    simp [← h]
  | cons x xs ih =>
    intro newCells h
    rw [castColumn] at h
    cases hx : castCell d x with
    | castFail => rw [hx] at h; simp at h
    | overflow => rw [hx] at h; simp at h
    | ok y =>
      rw [hx] at h
      cases hxs : castColumn d xs with
      | castFail => rw [hxs] at h; simp at h
      | overflow => rw [hxs] at h; simp at h
      | ok ys =>
        rw [hxs] at h
        simp only [ColumnCast.ok.injEq] at h
        subst h
        simp [ih ys hxs]

theorem castColumn_get? (d : Dtype) :
    ∀ cells newCells, castColumn d cells = ColumnCast.ok newCells →
      ∀ i, newCells.get? i =
        (cells.get? i).bind fun y => castOutcomeCell (castCell d y) := by
  intro cells
  induction cells with
  | nil =>
    intro newCells h i
    simp only [castColumn, ColumnCast.ok.injEq] at h
    subst h
    simp
  | cons x xs ih =>
    intro newCells h i
    rw [castColumn] at h
    cases hx : castCell d x with
    | castFail => rw [hx] at h; simp at h
    | overflow => rw [hx] at h; simp at h
    | ok y =>
      rw [hx] at h
      cases hxs : castColumn d xs with
      | castFail => rw [hxs] at h; simp at h
      | overflow => rw [hxs] at h; simp at h
      | ok ys =>
        rw [hxs] at h
        simp only [ColumnCast.ok.injEq] at h
        subst h
        cases i with
        | zero => simp [hx, castOutcomeCell]
        | succ n => simpa using ih ys hxs n

theorem convEffect_length (conversions : List (String × Dtype)) (x : String)
    (cells : List Cell) : (convEffect conversions x cells).length = cells.length := by
  unfold convEffect
  cases hf : conversions.find? fun cv => cv.1 = x with
  | none => rfl
  | some cv =>
    cases hcast : castColumn cv.2 cells with
    | castFail => simp [hcast]
    | overflow => simp [hcast]
    | ok newCells => simp [hcast, castColumn_length cv.2 cells newCells hcast]

theorem applyConversions_cols (conversions : List (String × Dtype)) :
    ∀ cols : List Column, (conversions.map Prod.fst).Nodup →
      (cols.map Prod.fst).Nodup → noOverflow cols conversions = true →
      (applyConversions cols conversions).1 =
        some (cols.map fun col => (col.1, convEffect conversions col.1 col.2)) := by
  induction conversions with
  | nil =>
    intro cols _ _ _
    simp [applyConversions, convEffect]
  | cons cv rest ih =>
    intro cols hnd hcols hnov
    obtain ⟨c, d⟩ := cv
    simp only [List.map_cons, List.nodup_cons] at hnd
    obtain ⟨hc, hndr⟩ := hnd
    obtain ⟨hnovr, hnovhd⟩ := noOverflow_cons cols (c, d) rest hnov
    rw [applyConversions]
    cases hlc : lookupColumn cols c with
    | none =>
      have hnone := lookupColumn_eq_none cols c hlc
      simp only []
      rw [ih cols hndr hcols hnovr]
      congr 1
      apply List.map_congr_left
      intro col hmem
      rw [convEffect_cons_ne c d rest col.1 (hnone col hmem) col.2]
    | some cells =>
      cases hcast : castColumn d cells with
      | ok newCells =>
        simp only [hcast]
        have hcols2 : ((setColumn cols c newCells).map Prod.fst).Nodup := by
          rw [setColumn_map_fst]; exact hcols
        have hnov2 : noOverflow (setColumn cols c newCells) rest = true :=
          noOverflow_setColumn cols c newCells rest hc hnovr
        rw [ih (setColumn cols c newCells) hndr hcols2 hnov2]
        rw [setColumn]
        rw [List.map_map]
        congr 1
        apply List.map_congr_left
        intro col hmem
        by_cases hcc : col.1 = c
        · have hcol2 : col.2 = cells := by
            have := lookupColumn_of_mem_nodup cols hcols col hmem
            rw [hcc] at this
            rw [this] at hlc
            exact (Option.some.injEq _ _).mp hlc
          have heff : convEffect rest c newCells = newCells :=
            convEffect_not_mem rest c hc newCells
          have hhead : convEffect ((c, d) :: rest) c cells = newCells := by
            unfold convEffect
            rw [List.find?_cons_of_pos _ (by simp)]
            simp [hcast]
          simp [Function.comp, hcc, heff, hcol2, hhead]
        · have heq := convEffect_cons_ne c d rest col.1 hcc col.2
          simp [Function.comp, hcc, heq]
      | castFail =>
        simp only [hcast]
        rw [ih cols hndr hcols hnovr]
        congr 1
        apply List.map_congr_left
        intro col hmem
        by_cases hcc : col.1 = c
        · have hcol2 : col.2 = cells := by
            have := lookupColumn_of_mem_nodup cols hcols col hmem
            rw [hcc] at this
            rw [this] at hlc
            exact (Option.some.injEq _ _).mp hlc
          have heff : convEffect rest c cells = cells :=
            convEffect_not_mem rest c hc cells
          have hhead : convEffect ((c, d) :: rest) c cells = cells := by
            unfold convEffect
            rw [List.find?_cons_of_pos _ (by simp)]
            simp [hcast]
          simp [hcc, hcol2, heff, hhead]
        · have heq := convEffect_cons_ne c d rest col.1 hcc col.2
          simp [hcc, heq]
      | overflow => exact absurd hcast (hnovhd cells hlc)

theorem applyConversions_logs (conversions : List (String × Dtype)) :
    ∀ cols : List Column, (conversions.map Prod.fst).Nodup →
      noOverflow cols conversions = true →
      (applyConversions cols conversions).2 = conversions.map (logOf cols) := by
  induction conversions with
  | nil => intro cols _ _; simp [applyConversions]
  | cons cv rest ih =>
    intro cols hnd hnov
    obtain ⟨c, d⟩ := cv
    simp only [List.map_cons, List.nodup_cons] at hnd
    obtain ⟨hc, hndr⟩ := hnd
    obtain ⟨hnovr, hnovhd⟩ := noOverflow_cons cols (c, d) rest hnov
    rw [applyConversions]
    cases hlc : lookupColumn cols c with
    | none =>
      simp only []
      rw [ih cols hndr hnovr]
      simp [logOf, hlc]
    | some cells =>
      cases hcast : castColumn d cells with
      | ok newCells =>
        simp only [hcast]
        have hnov2 : noOverflow (setColumn cols c newCells) rest = true :=
          noOverflow_setColumn cols c newCells rest hc hnovr
        rw [ih (setColumn cols c newCells) hndr hnov2]
        have hmap : rest.map (logOf (setColumn cols c newCells)) = rest.map (logOf cols) := by
          apply List.map_congr_left
          intro cv hmem
          have hne : cv.1 ≠ c := fun hh =>
            hc (hh ▸ List.mem_map_of_mem Prod.fst hmem)
          simp [logOf, lookupColumn_setColumn_ne cols c cv.1 newCells hne]
        simp [logOf, hlc, hcast, hmap]
      | castFail =>
        simp only [hcast]
        rw [ih cols hndr hnovr]
        simp [logOf, hlc, hcast]
      | overflow => exact absurd hcast (hnovhd cells hlc)

theorem countLog_eq_zero (x : ConvLog) (l : List ConvLog)
    (h : ∀ y ∈ l, y ≠ x) : countLog x l = 0 := by
  induction l with
  | nil => rfl
  | cons y ys ih =>
    have hy : y ≠ x := h y (List.mem_cons_self y ys)
    simp [countLog, hy, ih (fun z hz => h z (List.mem_cons_of_mem y hz))]

theorem logOf_failed_name (cols : List Column) (cv : String × Dtype) (x : String)
    (h : logOf cols cv = ConvLog.convertFailed x) : cv.1 = x := by
  unfold logOf at h
  cases hlc : lookupColumn cols cv.1 with
  | none => rw [hlc] at h; simp at h
  | some cells =>
    rw [hlc] at h
    cases hcast : castColumn cv.2 cells with
    | ok newCells => simp only [hcast] at h; simp at h
    | castFail =>
      simp only [hcast] at h
      simp only [ConvLog.convertFailed.injEq] at h
      exact h
    | overflow =>
      simp only [hcast] at h
      simp only [ConvLog.convertFailed.injEq] at h
      exact h

theorem countLog_convertFailed (cols : List Column) (c : String) (d : Dtype) :
    ∀ conversions : List (String × Dtype), (conversions.map Prod.fst).Nodup →
      (c, d) ∈ conversions → logOf cols (c, d) = ConvLog.convertFailed c →
      countLog (ConvLog.convertFailed c) (conversions.map (logOf cols)) = 1 := by
  intro conversions
  induction conversions with
  | nil => intro _ hmem _; cases hmem
  | cons cv rest ih =>
    intro hnd hmem hlog
    simp only [List.map_cons, List.nodup_cons] at hnd
    obtain ⟨hc, hndr⟩ := hnd
    rcases List.mem_cons.mp hmem with heq | hmemr
    · subst heq
      have hzero : countLog (ConvLog.convertFailed c) (rest.map (logOf cols)) = 0 := by
        apply countLog_eq_zero
        intro y hy
        obtain ⟨cv2, hmem2, rfl⟩ := List.mem_map.mp hy
        intro hcontra
        have hname : cv2.1 = c := logOf_failed_name cols cv2 c hcontra
        have h1 : cv2.1 ∈ rest.map Prod.fst := List.mem_map_of_mem Prod.fst hmem2
        rw [hname] at h1
        exact hc h1
      simp [countLog, hlog, hzero]
    · have hcc : c ∈ rest.map Prod.fst := by
        have := List.mem_map_of_mem Prod.fst hmemr
        simpa using this
      have hne : cv.1 ≠ c := fun hh => hc (hh ▸ hcc)
      have hhead : logOf cols cv ≠ ConvLog.convertFailed c := fun hcontra =>
        hne (logOf_failed_name cols cv c hcontra)
      simp [countLog, hhead, ih hndr hmemr hlog]

theorem seenKeys_nodup : ∀ (ks acc : List String), acc.Nodup →
    (seenKeys acc ks).Nodup := by
  intro ks
  induction ks with
  | nil => intro acc h; exact h
  | cons k ks ih =>
    intro acc h
    rw [seenKeys]
    by_cases hc : acc.contains k
    · simp only [hc, if_true]
      exact ih acc h
    · simp only [hc, if_false]
      apply ih
      have hk : k ∉ acc := by
        intro hmem
        exact hc (by simpa [List.contains, List.elem_iff] using hmem)
      simp [List.nodup_append, h, hk]

theorem payloadKeys_nodup (data : Payload) : (payloadKeys data).Nodup := by
  unfold payloadKeys
  have : ∀ (l : Payload) (acc : List String), acc.Nodup →
      (l.foldl (fun a r => seenKeys a (r.map Prod.fst)) acc).Nodup := by
    intro l
    induction l with
    | nil => intro acc h; exact h
    | cons r rest ih =>
      intro acc h
      exact ih _ (seenKeys_nodup (r.map Prod.fst) acc h)
  exact this data [] List.nodup_nil

theorem toDataFrame_map_fst (data : Payload) :
    (toDataFrame data).cols.map Prod.fst = payloadKeys data := by
  unfold toDataFrame
  simp only [List.map_map]
  have hcomp : (Prod.fst ∘ fun k => (k, data.map fun r => lookupField r k)) =
      fun k : String => k := by
    funext k
    rfl
  rw [hcomp]
  simp

theorem toDataFrame_nodup (data : Payload) :
    ((toDataFrame data).cols.map Prod.fst).Nodup := by
  rw [toDataFrame_map_fst]
  exact payloadKeys_nodup data

theorem normalize_dataframe_of_apply (df : DataFrame)
    (conversions : List (String × Dtype)) (hne : df.isEmpty = false)
    (cols2 : List Column) (logs : List ConvLog)
    (h : applyConversions df.cols conversions = (some cols2, logs)) :
    normalize_dataframe df conversions = (some ⟨cols2⟩, logs) := by
  unfold normalize_dataframe
  rw [if_neg (by simp [hne]), h]

/-- The overflow payload: a quantity whose digits parse to an integer
beyond the int64 range, so astype raises OverflowError. -/
def overflowPayload : Payload :=
  [[("quantity", Cell.str "99999999999999999999999999")]]

/-- C3 counterexample. The quantity column is present and its only cell
fails to cast to the target integer type, yet no column-kept, one-warning
outcome occurs: astype raises OverflowError, which the inner handler does
not catch, the conversion loop is aborted with no failure warning logged
for the column, and the whole normalization returns the failure
sentinel. -/
theorem normalize_overflow_aborts :
    lookupColumn (toDataFrame overflowPayload).cols "quantity" =
      some [Cell.str "99999999999999999999999999"] ∧
    castColumn Dtype.dtInt [Cell.str "99999999999999999999999999"] =
      ColumnCast.overflow ∧
    (process_inventory_dataframe overflowPayload).1 = none ∧
    countLog (ConvLog.convertFailed "quantity")
      (process_inventory_dataframe overflowPayload).2 = 0 := by
  refine ⟨?_, ?_, ?_, ?_⟩ <;> decide

/-- C3 (amended). For every all-ASCII payload and every entry of a
conversion table with pairwise distinct column names, if the named column
is present in the derived DataFrame, its astype raises the ValueError or
TypeError class on some cell (the classes the inner handler catches), and
no entry of the table raises the uncaught OverflowError, then the whole
column is returned in its original form, exactly one failure warning is
logged for it, the normalization still returns a DataFrame, and every
column is still given by the net effect of the conversion table, so the
other entries are applied as usual. An overflow failure instead aborts
the whole normalization, per the counterexample. -/
theorem normalize_column_all_or_nothing (data : Payload)
    (conversions : List (String × Dtype)) (c : String) (d : Dtype) (cells : List Cell)
    (hnd : (conversions.map Prod.fst).Nodup)
    (hne : (toDataFrame data).isEmpty = false)
    (_hascii : payloadAscii data = true)
    (hmem : (c, d) ∈ conversions)
    (hlook : lookupColumn (toDataFrame data).cols c = some cells)
    (hfail : castColumn d cells = ColumnCast.castFail)
    (hnov : noOverflow (toDataFrame data).cols conversions = true) :
    ∃ out, (normalize_dataframe (toDataFrame data) conversions).1 = some out ∧
      lookupColumn out.cols c = some cells ∧
      countLog (ConvLog.convertFailed c)
        (normalize_dataframe (toDataFrame data) conversions).2 = 1 ∧
      ∀ x, lookupColumn out.cols x =
        (lookupColumn (toDataFrame data).cols x).map (convEffect conversions x) := by
  have hcols := toDataFrame_nodup data
  have hchar := applyConversions_cols conversions (toDataFrame data).cols hnd hcols hnov
  have hlogs := applyConversions_logs conversions (toDataFrame data).cols hnd hnov
  have hpair : applyConversions (toDataFrame data).cols conversions =
      (some ((toDataFrame data).cols.map fun col =>
        (col.1, convEffect conversions col.1 col.2)),
       conversions.map (logOf (toDataFrame data).cols)) := by
    rw [← hchar, ← hlogs]
  have hnorm := normalize_dataframe_of_apply (toDataFrame data) conversions hne _ _ hpair
  have hlkp : ∀ x, lookupColumn ((toDataFrame data).cols.map fun col =>
      (col.1, convEffect conversions col.1 col.2)) x =
      (lookupColumn (toDataFrame data).cols x).map (convEffect conversions x) :=
    fun x => lookupColumn_map_effect (toDataFrame data).cols (convEffect conversions) x
  have hc2 : lookupColumn ((toDataFrame data).cols.map fun col =>
      (col.1, convEffect conversions col.1 col.2)) c = some cells := by
    rw [hlkp c, hlook]
    have hfind := find?_conv_of_mem_nodup conversions c d hnd hmem
    simp [convEffect, hfind, hfail]
  have hlog1 : logOf (toDataFrame data).cols (c, d) = ConvLog.convertFailed c := by
    simp [logOf, hlook, hfail]
  have hcount : countLog (ConvLog.convertFailed c)
      (normalize_dataframe (toDataFrame data) conversions).2 = 1 := by
    rw [hnorm]
    exact countLog_convertFailed (toDataFrame data).cols c d conversions hnd hmem hlog1
  exact ⟨⟨(toDataFrame data).cols.map fun col =>
      (col.1, convEffect conversions col.1 col.2)⟩,
    by rw [hnorm], hc2, hcount, fun x => hlkp x⟩

/-- The quantity column example of the spec: three records whose quantity
strings are 3, abc and 5. -/
def quantityPayload : Payload :=
  [[("quantity", Cell.str "3")], [("quantity", Cell.str "abc")], [("quantity", Cell.str "5")]]

theorem normalize_column_all_or_nothing_witness :
    countLog (ConvLog.convertFailed "quantity")
      (normalize_dataframe (toDataFrame quantityPayload) inventory_conversions).2 = 1 ∧
    (normalize_dataframe (toDataFrame quantityPayload) inventory_conversions).1.isSome
      = true := by
  obtain ⟨out, h1, h2, h3, h4⟩ := normalize_column_all_or_nothing quantityPayload
    inventory_conversions "quantity" Dtype.dtInt
    [Cell.str "3", Cell.str "abc", Cell.str "5"]
    (by decide) (by decide) (by decide) (by decide) (by decide) (by decide) (by decide)
  exact ⟨h3, by rw [h1]; rfl⟩

/-- C10 counterexample. A nonempty payload whose normalization returns no
DataFrame at all: the out-of-int64 quantity makes astype raise
OverflowError, which escapes the per-column handler and aborts the whole
normalization, so no frame-preserving output exists for this payload. -/
theorem normalize_overflow_no_frame :
    (toDataFrame overflowPayload).isEmpty = false ∧
    (normalize_dataframe (toDataFrame overflowPayload) inventory_conversions).1 =
      none := by
  refine ⟨?_, ?_⟩ <;> decide

/-- C10 (amended). For every all-ASCII payload whose derived DataFrame is
nonempty and every conversion table with pairwise distinct column names
none of whose entries raises the uncaught OverflowError, normalization
returns a DataFrame with the same column names in the same order and the
same number of rows; a column the table does not name is unchanged, a
named column whose astype raises the caught ValueError or TypeError class
is unchanged, and a named column whose astype succeeds becomes its
elementwise cast, so row order and row count are preserved everywhere.
Without the no-overflow proviso normalization can instead return the
failure sentinel, per the counterexample. -/
theorem normalize_preserves_frame (data : Payload)
    (conversions : List (String × Dtype))
    (hnd : (conversions.map Prod.fst).Nodup)
    (hne : (toDataFrame data).isEmpty = false)
    (_hascii : payloadAscii data = true)
    (hnov : noOverflow (toDataFrame data).cols conversions = true) :
    ∃ out, (normalize_dataframe (toDataFrame data) conversions).1 = some out ∧
      out.cols.map Prod.fst = (toDataFrame data).cols.map Prod.fst ∧
      out.nrows = (toDataFrame data).nrows ∧
      (∀ x, x ∉ conversions.map Prod.fst →
        lookupColumn out.cols x = lookupColumn (toDataFrame data).cols x) ∧
      (∀ x d cells, (x, d) ∈ conversions →
        lookupColumn (toDataFrame data).cols x = some cells →
        castColumn d cells = ColumnCast.castFail →
        lookupColumn out.cols x = some cells) ∧
      (∀ x d cells newCells, (x, d) ∈ conversions →
        lookupColumn (toDataFrame data).cols x = some cells →
        castColumn d cells = ColumnCast.ok newCells →
        lookupColumn out.cols x = some newCells ∧
        ∀ i, newCells.get? i =
          (cells.get? i).bind fun y => castOutcomeCell (castCell d y)) := by
  have hcols := toDataFrame_nodup data
  have hchar := applyConversions_cols conversions (toDataFrame data).cols hnd hcols hnov
  have hlogs := applyConversions_logs conversions (toDataFrame data).cols hnd hnov
  have hpair : applyConversions (toDataFrame data).cols conversions =
      (some ((toDataFrame data).cols.map fun col =>
        (col.1, convEffect conversions col.1 col.2)),
       conversions.map (logOf (toDataFrame data).cols)) := by
    rw [← hchar, ← hlogs]
  have hnorm := normalize_dataframe_of_apply (toDataFrame data) conversions hne _ _ hpair
  have hlkp : ∀ x, lookupColumn ((toDataFrame data).cols.map fun col =>
      (col.1, convEffect conversions col.1 col.2)) x =
      (lookupColumn (toDataFrame data).cols x).map (convEffect conversions x) :=
    fun x => lookupColumn_map_effect (toDataFrame data).cols (convEffect conversions) x
  refine ⟨⟨(toDataFrame data).cols.map fun col =>
      (col.1, convEffect conversions col.1 col.2)⟩, by rw [hnorm], ?_, ?_, ?_, ?_, ?_⟩
  · show ((toDataFrame data).cols.map fun col =>
        (col.1, convEffect conversions col.1 col.2)).map Prod.fst =
      (toDataFrame data).cols.map Prod.fst
    rw [List.map_map]
    apply List.map_congr_left
    intro col _
    rfl
  · show DataFrame.nrows ⟨(toDataFrame data).cols.map fun col =>
        (col.1, convEffect conversions col.1 col.2)⟩ = (toDataFrame data).nrows
    have hn : ∀ cols2 : List Column,
        DataFrame.nrows ⟨cols2.map fun col => (col.1, convEffect conversions col.1 col.2)⟩ =
          DataFrame.nrows ⟨cols2⟩ := by
      intro cols2
      cases cols2 with
      | nil => rfl
      | cons hd tl => simp [DataFrame.nrows, convEffect_length]
    exact hn (toDataFrame data).cols
  · intro x hx
    show lookupColumn ((toDataFrame data).cols.map fun col =>
        (col.1, convEffect conversions col.1 col.2)) x =
      lookupColumn (toDataFrame data).cols x
    rw [hlkp x]
    cases hl : lookupColumn (toDataFrame data).cols x with
    | none => rfl
    | some cs => simp [convEffect_not_mem conversions x hx]
  · intro x d cells hm hl hf
    show lookupColumn ((toDataFrame data).cols.map fun col =>
        (col.1, convEffect conversions col.1 col.2)) x = some cells
    rw [hlkp x, hl]
    have hfind := find?_conv_of_mem_nodup conversions x d hnd hm
    simp [convEffect, hfind, hf]
  · intro x d cells newCells hm hl hcst
    refine ⟨?_, castColumn_get? d cells newCells hcst⟩
    show lookupColumn ((toDataFrame data).cols.map fun col =>
        (col.1, convEffect conversions col.1 col.2)) x = some newCells
    rw [hlkp x, hl]
    have hfind := find?_conv_of_mem_nodup conversions x d hnd hm
    simp [convEffect, hfind, hcst]

/-- A two-row, two-column payload used to instantiate the frame
preservation theorem. -/
def frameSamplePayload : Payload :=
  [[("order_id", Cell.str "7"), ("note", Cell.str "x")],
   [("order_id", Cell.str "8"), ("note", Cell.str "y")]]

theorem normalize_preserves_frame_witness :
    ((normalize_dataframe (toDataFrame frameSamplePayload) orders_conversions).1.map
      fun out => (out.cols.map Prod.fst, out.nrows)) = some (["order_id", "note"], 2) := by
  obtain ⟨out, h1, h2, h3, _, _, _⟩ := normalize_preserves_frame frameSamplePayload
    orders_conversions (by decide) (by decide) (by decide) (by decide)
  rw [h1]
  have e2 : out.cols.map Prod.fst = ["order_id", "note"] := by rw [h2]; decide
  have e3 : out.nrows = 2 := by rw [h3]; decide
  simp [e2, e3]

/-- A worksheet of the spreadsheet backend: its name, its row and column
capacity, and its cell content as a position-to-text map in write
order. -/
structure Worksheet where
  wsName : String
  rowCap : Nat
  colCap : Nat
  content : List ((Nat × Nat) × String)
deriving DecidableEq

/-- A spreadsheet: its name and its worksheets in tab order. -/
structure Spreadsheet where
  sName : String
  worksheets : List Worksheet
deriving DecidableEq

/-- The text a cell is rendered to when written: strings as themselves,
integers in decimal, and NaN as an empty cell. -/
def cellToString : Cell → String
  | Cell.str s => s
  | Cell.int n => toString n
  | Cell.na => ""

/-- The cells set_with_dataframe writes: the header row with the column
names at the anchor row, then the data rows below it, both starting at
the anchor column. -/
def renderDataFrame (df : DataFrame) (row col : Nat) : List ((Nat × Nat) × String) :=
  (df.cols.enum.map fun jc => ((row, col + jc.1), jc.2.1)) ++
  (List.range df.nrows).flatMap fun i =>
    df.cols.enum.map fun jc =>
      ((row + 1 + i, col + jc.1), cellToString (jc.2.2.getD i Cell.na))

/-- Overwrite one cell of worksheet content, appending it when the
position was not present. -/
def writeCell (content : List ((Nat × Nat) × String)) (p : Nat × Nat) (v : String) :
    List ((Nat × Nat) × String) :=
  if content.any fun cell => cell.1 = p then
    content.map fun cell => if cell.1 = p then (p, v) else cell
  else content ++ [(p, v)]

/-- Apply a list of cell writes in order. -/
def applyWrites (content : List ((Nat × Nat) × String)) :
    List ((Nat × Nat) × String) → List ((Nat × Nat) × String)
  | [] => content
  | w :: rest => applyWrites (writeCell content w.1 w.2) rest

/-- Replace the first list element satisfying the test by its image,
leaving everything else alone: this is what mutating the object a find
handle points to does to the containing list. -/
def updateFirst {β : Type} (p : β → Bool) (f : β → β) : List β → List β
  | [] => []
  | x :: xs => if p x then f x :: xs else x :: updateFirst p f xs

/-- gc.open: the first spreadsheet with the given name. -/
def findSpreadsheet (world : List Spreadsheet) (s : String) : Option Spreadsheet :=
  world.find? fun sh => sh.sName = s

/-- Mutate the spreadsheet the open handle points to. -/
def updateSpreadsheet (world : List Spreadsheet) (s : String)
    (f : Spreadsheet → Spreadsheet) : List Spreadsheet :=
  updateFirst (fun sh => sh.sName = s) f world

/-- sh.worksheet: the first worksheet with the given name. -/
def findWorksheet (sh : Spreadsheet) (w : String) : Option Worksheet :=
  sh.worksheets.find? fun ws => ws.wsName = w

/-- Mutate the worksheet the handle points to. -/
def updateWorksheet (sh : Spreadsheet) (w : String) (f : Worksheet → Worksheet) :
    Spreadsheet :=
  ⟨sh.sName, updateFirst (fun ws => ws.wsName = w) f sh.worksheets⟩

/-- sh.add_worksheet: append a new worksheet. -/
def addWorksheetToSheet (sh : Spreadsheet) (w : Worksheet) : Spreadsheet :=
  ⟨sh.sName, sh.worksheets ++ [w]⟩

/-- The exception classes the except clauses of upload_to_google_sheets
distinguish, plus the import failure of the gspread library itself. -/
inductive UploadExc where
  | apiError
  | spreadsheetNotFound
  | fileNotFound
  | importFailure
  | otherExc
deriving DecidableEq

/-- A filesystem path as a list of components. -/
abbrev FsPath := List String

/-- os.path.basename: the last path component. -/
def basename (p : FsPath) : String := p.getLastD ""

/-- The environment upload_to_google_sheets runs against: whether the two
imports succeed, which files exist, the working directory, the outcome of
authenticating with a given credentials path, injected failures of the
open, add-worksheet, clear and write calls, and the spreadsheet world. -/
structure UploadEnv where
  gspreadImportOk : Bool
  gdfImportOk : Bool
  fileExists : FsPath → Bool
  cwd : FsPath
  auth : FsPath → Option UploadExc
  openExc : Option UploadExc
  addWsExc : Option UploadExc
  clearExc : Option UploadExc
  writeExc : Option UploadExc
  world : List Spreadsheet

/-- Credential resolution of upload_to_google_sheets, lines 232 to 250:
use the given path when it exists, else the current working directory
plus the file basename when that exists, else none. -/
def resolve_credentials (fileExists : FsPath → Bool) (cwd : FsPath) (credentials_file : FsPath) :
    Option FsPath :=
  if fileExists credentials_file then some credentials_file
  else if fileExists (cwd ++ [basename credentials_file]) then
    some (cwd ++ [basename credentials_file])
  else none

/-- The clear-then-write tail of the upload: worksheet.clear empties the
whole sheet, then set_with_dataframe writes the rendered cells. Either
call can raise. -/
def upload_write_steps (env : UploadEnv) (world : List Spreadsheet) (df : DataFrame)
    (sheet_name worksheet_name : String) (start_row start_col : Nat) :
    List Spreadsheet × Except UploadExc Bool :=
  match env.clearExc with
  | some e => (world, Except.error e)
  | none =>
    let world2 := updateSpreadsheet world sheet_name
      (fun sh => updateWorksheet sh worksheet_name fun ws => { ws with content := [] })
    match env.writeExc with
    | some e => (world2, Except.error e)
    | none =>
      (updateSpreadsheet world2 sheet_name
        (fun sh => updateWorksheet sh worksheet_name fun ws =>
          { ws with content :=
              applyWrites ws.content (renderDataFrame df start_row start_col) }),
       Except.ok true)

/-- The try-block body of upload_to_google_sheets, lines 226 to 278, with
the spreadsheet world threaded through: an error value stands for a
raised exception and ok for a normal return. Both imports sit inside the
try block; a failed import raises. A missing credentials file returns
False directly. A missing spreadsheet raises SpreadsheetNotFound; a
missing worksheet is instead created with capacity 1000 rows by 20
columns and the upload continues. -/
def upload_try_body (env : UploadEnv) (df : DataFrame) (credentials_file : FsPath)
    (sheet_name worksheet_name : String) (start_row start_col : Nat) :
    List Spreadsheet × Except UploadExc Bool :=
  if env.gspreadImportOk = false then (env.world, Except.error UploadExc.importFailure)
  else if env.gdfImportOk = false then (env.world, Except.error UploadExc.importFailure)
  else
    match resolve_credentials env.fileExists env.cwd credentials_file with
    | none => (env.world, Except.ok false)
    | some path =>
      match env.auth path with
      | some e => (env.world, Except.error e)
      | none =>
        match findSpreadsheet env.world sheet_name with
        | none => (env.world, Except.error UploadExc.spreadsheetNotFound)
        | some sh =>
          match env.openExc with
          | some e => (env.world, Except.error e)
          | none =>
            match findWorksheet sh worksheet_name with
            | some _ =>
              upload_write_steps env env.world df sheet_name worksheet_name
                start_row start_col
            | none =>
              match env.addWsExc with
              | some e => (env.world, Except.error e)
              | none =>
                upload_write_steps env
                  (updateSpreadsheet env.world sheet_name
                    (fun s2 => addWorksheetToSheet s2 ⟨worksheet_name, 1000, 20, []⟩))
                  df sheet_name worksheet_name start_row start_col

/-- upload_to_google_sheets, lines 208 to 295: the try body under the
four except clauses. When the body raises and the gspread import had
succeeded, some except clause matches and the function returns False.
When the body raises because the gspread import itself failed, the except
clauses, which name gspread, raise while being evaluated, so the failure
escapes the function instead of being reduced to False. -/
def upload_to_google_sheets (env : UploadEnv) (df : DataFrame) (credentials_file : FsPath)
    (sheet_name worksheet_name : String) (start_row start_col : Nat) :
    List Spreadsheet × Except UploadExc Bool :=
  match upload_try_body env df credentials_file sheet_name worksheet_name
      start_row start_col with
  | (w, Except.ok b) => (w, Except.ok b)
  | (w, Except.error e) =>
    if env.gspreadImportOk then (w, Except.ok false) else (w, Except.error e)

theorem find?_updateFirst {β : Type} (p : β → Bool) (f : β → β)
    (hf : ∀ a, p (f a) = p a) :
    ∀ l : List β, (updateFirst p f l).find? p = (l.find? p).map f := by
  intro l
  induction l with
  | nil => rfl
  | cons x xs ih =>
    by_cases hx : p x = true
    · have hfx : p (f x) = true := by rw [hf]; exact hx
      rw [updateFirst, if_pos hx]
      rw [List.find?_cons_of_pos _ hfx, List.find?_cons_of_pos _ hx]
      rfl
    · rw [updateFirst, if_neg hx]
      rw [List.find?_cons_of_neg _ hx, List.find?_cons_of_neg _ hx]
      exact ih

theorem updateFirst_comp {β : Type} (p : β → Bool) (f g : β → β)
    (hg : ∀ a, p (g a) = p a) :
    ∀ l : List β, updateFirst p f (updateFirst p g l) = updateFirst p (fun a => f (g a)) l := by
  intro l
  induction l with
  | nil => rfl
  | cons x xs ih =>
    by_cases hx : p x = true
    · have hgx : p (g x) = true := by rw [hg]; exact hx
      simp [updateFirst, hx, hgx]
    · simp [updateFirst, hx, ih]

theorem updateFirst_fix {β : Type} (p : β → Bool) (f : β → β) :
    ∀ l : List β, (∀ a, l.find? p = some a → f a = a) → updateFirst p f l = l := by
  intro l
  induction l with
  | nil => intro _; rfl
  | cons x xs ih =>
    intro h
    by_cases hx : p x = true
    · rw [updateFirst, if_pos hx]
      rw [h x (List.find?_cons_of_pos _ hx)]
    · rw [updateFirst, if_neg hx]
      rw [ih]
      intro a ha
      exact h a (by rw [List.find?_cons_of_neg _ hx]; exact ha)

theorem find?_append_of_none {β : Type} (p : β → Bool) (l : List β) (x : β)
    (h : l.find? p = none) (hx : p x = true) : (l ++ [x]).find? p = some x := by
  induction l with
  | nil => simpa using List.find?_cons_of_pos ([] : List β) hx
  | cons y ys ih =>
    have hy : ¬ p y = true := by
      intro hpy
      rw [List.find?_cons_of_pos _ hpy] at h
      exact Option.noConfusion h
    rw [List.cons_append, List.find?_cons_of_neg _ hy]
    rw [List.find?_cons_of_neg _ hy] at h
    exact ih h

theorem findSpreadsheet_update (world : List Spreadsheet) (s : String)
    (f : Spreadsheet → Spreadsheet) (hf : ∀ sh, (f sh).sName = sh.sName) :
    findSpreadsheet (updateSpreadsheet world s f) s = (findSpreadsheet world s).map f := by
  unfold findSpreadsheet updateSpreadsheet
  apply find?_updateFirst
  intro a
  simp [hf a]

theorem updateSpreadsheet_comp (world : List Spreadsheet) (s : String)
    (f g : Spreadsheet → Spreadsheet) (hg : ∀ sh, (g sh).sName = sh.sName) :
    updateSpreadsheet (updateSpreadsheet world s g) s f =
      updateSpreadsheet world s (fun sh => f (g sh)) := by
  unfold updateSpreadsheet
  apply updateFirst_comp
  intro a
  simp [hg a]

theorem updateSpreadsheet_fix (world : List Spreadsheet) (s : String)
    (f : Spreadsheet → Spreadsheet) (a : Spreadsheet)
    (ha : findSpreadsheet world s = some a) (hfa : f a = a) :
    updateSpreadsheet world s f = world := by
  unfold findSpreadsheet at ha
  unfold updateSpreadsheet
  apply updateFirst_fix
  intro b hb
  rw [ha] at hb
  injection hb with hba
  rw [← hba]
  exact hfa

theorem findWorksheet_update (sh : Spreadsheet) (w : String) (f : Worksheet → Worksheet)
    (hf : ∀ ws, (f ws).wsName = ws.wsName) :
    findWorksheet (updateWorksheet sh w f) w = (findWorksheet sh w).map f := by
  unfold findWorksheet updateWorksheet
  apply find?_updateFirst
  intro a
  simp [hf a]

theorem updateWorksheet_comp (sh : Spreadsheet) (w : String)
    (f g : Worksheet → Worksheet) (hg : ∀ ws, (g ws).wsName = ws.wsName) :
    updateWorksheet (updateWorksheet sh w g) w f =
      updateWorksheet sh w (fun ws => f (g ws)) := by
  unfold updateWorksheet
  congr 1
  apply updateFirst_comp
  intro a
  simp [hg a]

theorem findWorksheet_add (sh : Spreadsheet) (w : Worksheet)
    (h : findWorksheet sh w.wsName = none) :
    findWorksheet (addWorksheetToSheet sh w) w.wsName = some w := by
  unfold findWorksheet at h
  unfold findWorksheet addWorksheetToSheet
  exact find?_append_of_none _ sh.worksheets w h (by simp)

theorem upload_write_steps_success (env : UploadEnv) (world : List Spreadsheet)
    (df : DataFrame) (sheet_name worksheet_name : String) (start_row start_col : Nat)
    (hc : env.clearExc = none) (hw : env.writeExc = none) :
    upload_write_steps env world df sheet_name worksheet_name start_row start_col =
      (updateSpreadsheet world sheet_name
        (fun sh => updateWorksheet sh worksheet_name fun ws =>
          { ws with content :=
              applyWrites [] (renderDataFrame df start_row start_col) }),
       Except.ok true) := by
  unfold upload_write_steps
  simp only [hc, hw]
  rw [updateSpreadsheet_comp world sheet_name _
    (fun sh => updateWorksheet sh worksheet_name fun ws => { ws with content := [] })
    (fun sh => rfl)]
  have hfun : (fun sh => updateWorksheet
      (updateWorksheet sh worksheet_name fun ws => { ws with content := [] })
      worksheet_name fun ws =>
        { ws with content :=
            applyWrites ws.content (renderDataFrame df start_row start_col) }) =
      (fun sh => updateWorksheet sh worksheet_name fun ws =>
        { ws with content :=
            applyWrites [] (renderDataFrame df start_row start_col) }) := by
    funext sh
    rw [updateWorksheet_comp sh worksheet_name _
      (fun ws => { ws with content := [] }) (fun ws => rfl)]
  rw [hfun]

theorem upload_body_success (env : UploadEnv) (df : DataFrame)
    (credentials_file : FsPath) (sheet_name worksheet_name : String)
    (start_row start_col : Nat) (p : FsPath) (sh : Spreadsheet)
    (h1 : env.gspreadImportOk = true) (h2 : env.gdfImportOk = true)
    (h3 : resolve_credentials env.fileExists env.cwd credentials_file = some p)
    (h4 : env.auth p = none) (h5 : env.openExc = none) (h6 : env.addWsExc = none)
    (h7 : env.clearExc = none) (h8 : env.writeExc = none)
    (h9 : findSpreadsheet env.world sheet_name = some sh) :
    upload_try_body env df credentials_file sheet_name worksheet_name
        start_row start_col =
      (updateSpreadsheet
        (match findWorksheet sh worksheet_name with
         | some _ => env.world
         | none => updateSpreadsheet env.world sheet_name
             (fun s2 => addWorksheetToSheet s2 ⟨worksheet_name, 1000, 20, []⟩))
        sheet_name
        (fun s2 => updateWorksheet s2 worksheet_name fun ws =>
          { ws with content :=
              applyWrites [] (renderDataFrame df start_row start_col) }),
       Except.ok true) := by
  unfold upload_try_body
  cases hws : findWorksheet sh worksheet_name with
  | some ws0 =>
    simp only [h1, h2, h3, h4, h5, h9, hws,
      upload_write_steps_success env _ df sheet_name worksheet_name start_row start_col
        h7 h8]
    simp
  | none =>
    simp only [h1, h2, h3, h4, h5, h6, h9, hws,
      upload_write_steps_success env _ df sheet_name worksheet_name start_row start_col
        h7 h8]
    simp

theorem upload_wrapper_ok (env : UploadEnv) (df : DataFrame)
    (credentials_file : FsPath) (sheet_name worksheet_name : String)
    (start_row start_col : Nat) (w0 : List Spreadsheet) (b : Bool)
    (hbody : upload_try_body env df credentials_file sheet_name worksheet_name
      start_row start_col = (w0, Except.ok b)) :
    upload_to_google_sheets env df credentials_file sheet_name worksheet_name
      start_row start_col = (w0, Except.ok b) := by
  unfold upload_to_google_sheets
  rw [hbody]

/-- Environment in which the gspread import itself fails. -/
def importFailEnv : UploadEnv :=
  ⟨false, true, fun _ => true, [], fun _ => none, none, none, none, none, []⟩

/-- Environment with both imports fine and credentials present, but no
spreadsheet of the requested name. -/
def noSheetEnv : UploadEnv :=
  ⟨true, true, fun _ => true, [], fun _ => none, none, none, none, none, []⟩

/-- C7 counterexample: when the gspread import fails, the publish step
does not catch the failure and return false: the except clauses name the
unbound gspread module and themselves raise while being evaluated, so an
exception propagates out of upload_to_google_sheets. -/
theorem upload_import_failure_escapes :
    (upload_to_google_sheets importFailEnv ⟨[]⟩ ["cred"] "S" "W" 1 1).2 =
      Except.error UploadExc.importFailure ∧
    (Except.error UploadExc.importFailure : Except UploadExc Bool) ≠
      Except.ok false := by
  constructor
  · rfl
  · intro h
    exact Except.noConfusion h

/-- C7 amended. Provided the import of the gspread library succeeds,
every failure mode arising inside the publish step (credentials missing,
authentication failure, spreadsheet missing, API error, or any other
error) is caught internally and reduced to a returned false: the
function never ends in a raised exception, and whenever the try body did
not return true it returns false. -/
theorem upload_catches_all_after_import (env : UploadEnv) (df : DataFrame)
    (credentials_file : FsPath) (sheet_name worksheet_name : String)
    (start_row start_col : Nat) (himp : env.gspreadImportOk = true) :
    (∀ e, (upload_to_google_sheets env df credentials_file sheet_name worksheet_name
        start_row start_col).2 ≠ Except.error e) ∧
    ((upload_try_body env df credentials_file sheet_name worksheet_name
        start_row start_col).2 ≠ Except.ok true →
      (upload_to_google_sheets env df credentials_file sheet_name worksheet_name
        start_row start_col).2 = Except.ok false) := by
  unfold upload_to_google_sheets
  cases hb : upload_try_body env df credentials_file sheet_name worksheet_name
      start_row start_col with
  | mk w r =>
    cases r with
    | ok b =>
      refine ⟨fun e => ?_, fun hne => ?_⟩
      · simp
      · cases b with
        | false => simp
        | true => exact absurd rfl hne
    | error e2 =>
      refine ⟨fun e => ?_, fun _ => ?_⟩ <;> simp [himp]

theorem upload_catches_all_after_import_witness :
    (upload_to_google_sheets noSheetEnv ⟨[]⟩ ["cred"] "S" "W" 1 1).2 =
      Except.ok false := by
  have h := upload_catches_all_after_import noSheetEnv ⟨[]⟩ ["cred"] "S" "W" 1 1 rfl
  apply h.2
  intro hcontra
  have hbd : (upload_try_body noSheetEnv ⟨[]⟩ ["cred"] "S" "W" 1 1).2 =
      Except.error UploadExc.spreadsheetNotFound := rfl
  rw [hbd] at hcontra
  exact Except.noConfusion hcontra

/-- Environment whose filesystem has no credential file anywhere and
whose authentication would raise if it were ever attempted. -/
def credsMissingEnv : UploadEnv :=
  ⟨true, true, fun _ => false, ["cwd"], fun _ => some UploadExc.otherExc,
    none, none, none, none, []⟩

/-- C8. The publish step resolves credentials as follows: when the given
path exists it proceeds with it; when it does not but the current working
directory plus the file basename exists it proceeds with that fallback;
and when neither exists the try body returns false at once with the world
untouched, whatever the authentication call would have done, so
authentication is never attempted. -/
theorem upload_credentials_resolution (fe : FsPath → Bool) (cwd credentials_file : FsPath) :
    (fe credentials_file = true →
      resolve_credentials fe cwd credentials_file = some credentials_file) ∧
    (fe credentials_file = false → fe (cwd ++ [basename credentials_file]) = true →
      resolve_credentials fe cwd credentials_file =
        some (cwd ++ [basename credentials_file])) ∧
    (fe credentials_file = false → fe (cwd ++ [basename credentials_file]) = false →
      resolve_credentials fe cwd credentials_file = none ∧
      ∀ (env : UploadEnv) (df : DataFrame) (sheet_name worksheet_name : String)
          (start_row start_col : Nat),
        env.fileExists = fe → env.cwd = cwd → env.gspreadImportOk = true →
        env.gdfImportOk = true →
        upload_try_body env df credentials_file sheet_name worksheet_name
          start_row start_col = (env.world, Except.ok false)) := by
  refine ⟨?_, ?_, ?_⟩
  · intro h1
    simp [resolve_credentials, h1]
  · intro h1 h2
    simp [resolve_credentials, h1, h2]
  · intro h1 h2
    have hres : resolve_credentials fe cwd credentials_file = none := by
      simp [resolve_credentials, h1, h2]
    refine ⟨hres, ?_⟩
    intro env df sheet_name worksheet_name start_row start_col hfe hcwd hgi hgdi
    unfold upload_try_body
    simp only [hgi, hgdi, hfe, hcwd, hres]
    simp

theorem upload_credentials_resolution_witness :
    resolve_credentials (fun p => decide (p = ["conf", "creds.json"])) ["cwd"]
      ["conf", "creds.json"] = some ["conf", "creds.json"] ∧
    resolve_credentials (fun p => decide (p = ["cwd", "creds.json"])) ["cwd"]
      ["conf", "creds.json"] = some ["cwd", "creds.json"] ∧
    upload_try_body credsMissingEnv ⟨[]⟩ ["conf", "creds.json"] "S" "W" 1 1 =
      (credsMissingEnv.world, Except.ok false) := by
  refine ⟨?_, ?_, ?_⟩
  · exact (upload_credentials_resolution (fun p => decide (p = ["conf", "creds.json"]))
      ["cwd"] ["conf", "creds.json"]).1 (by decide)
  · exact (upload_credentials_resolution (fun p => decide (p = ["cwd", "creds.json"]))
      ["cwd"] ["conf", "creds.json"]).2.1 (by decide) (by decide)
  · exact ((upload_credentials_resolution (fun _ => false) ["cwd"]
      ["conf", "creds.json"]).2.2 rfl rfl).2 credsMissingEnv ⟨[]⟩ "S" "W" 1 1
      rfl rfl rfl rfl

/-- C9. Under a successful import, credential resolution and
authentication: when the spreadsheet is found but the named worksheet is
absent (and no call is made to fail), the upload creates the worksheet
with the fixed default capacity of 1000 rows by 20 columns and publishing
continues to a successful true; whereas when the named spreadsheet is
absent, the try body raises SpreadsheetNotFound with the world untouched,
so nothing is auto-created and the function returns false. -/
theorem upload_worksheet_autocreate_spreadsheet_not (env : UploadEnv)
    (df : DataFrame) (credentials_file : FsPath)
    (sheet_name worksheet_name : String) (start_row start_col : Nat) (p : FsPath)
    (h1 : env.gspreadImportOk = true) (h2 : env.gdfImportOk = true)
    (h3 : resolve_credentials env.fileExists env.cwd credentials_file = some p)
    (h4 : env.auth p = none) (h5 : env.openExc = none) :
    (∀ sh, findSpreadsheet env.world sheet_name = some sh →
      findWorksheet sh worksheet_name = none →
      env.addWsExc = none → env.clearExc = none → env.writeExc = none →
      (upload_to_google_sheets env df credentials_file sheet_name worksheet_name
          start_row start_col).2 = Except.ok true ∧
      ∃ sh2 ws2,
        findSpreadsheet (upload_to_google_sheets env df credentials_file sheet_name
          worksheet_name start_row start_col).1 sheet_name = some sh2 ∧
        findWorksheet sh2 worksheet_name = some ws2 ∧
        ws2.rowCap = 1000 ∧ ws2.colCap = 20) ∧
    (findSpreadsheet env.world sheet_name = none →
      upload_try_body env df credentials_file sheet_name worksheet_name
          start_row start_col = (env.world, Except.error UploadExc.spreadsheetNotFound) ∧
      upload_to_google_sheets env df credentials_file sheet_name worksheet_name
          start_row start_col = (env.world, Except.ok false)) := by
  constructor
  · intro sh hsp hws h6 h7 h8
    have hbody := upload_body_success env df credentials_file sheet_name worksheet_name
      start_row start_col p sh h1 h2 h3 h4 h5 h6 h7 h8 hsp
    rw [hws] at hbody
    have hup := upload_wrapper_ok env df credentials_file sheet_name worksheet_name
      start_row start_col _ true hbody
    refine ⟨by rw [hup], ?_⟩
    rw [hup]
    have hnew : findWorksheet sh (Worksheet.mk worksheet_name 1000 20 []).wsName = none :=
      hws
    have hadd := findWorksheet_add sh ⟨worksheet_name, 1000, 20, []⟩ hnew
    have hsp1 : findSpreadsheet
        (updateSpreadsheet env.world sheet_name
          (fun s2 => addWorksheetToSheet s2 ⟨worksheet_name, 1000, 20, []⟩))
        sheet_name = some (addWorksheetToSheet sh ⟨worksheet_name, 1000, 20, []⟩) := by
      rw [findSpreadsheet_update env.world sheet_name
        (fun s2 => addWorksheetToSheet s2 ⟨worksheet_name, 1000, 20, []⟩)
        (fun s2 => rfl), hsp]
      rfl
    have hsp2 : findSpreadsheet
        (updateSpreadsheet
          (updateSpreadsheet env.world sheet_name
            (fun s2 => addWorksheetToSheet s2 ⟨worksheet_name, 1000, 20, []⟩))
          sheet_name
          (fun s2 => updateWorksheet s2 worksheet_name fun ws =>
            { ws with content :=
                applyWrites [] (renderDataFrame df start_row start_col) }))
        sheet_name = some (updateWorksheet
          (addWorksheetToSheet sh ⟨worksheet_name, 1000, 20, []⟩) worksheet_name
          fun ws =>
            { ws with content :=
                applyWrites [] (renderDataFrame df start_row start_col) }) := by
      rw [findSpreadsheet_update _ sheet_name
        (fun s2 => updateWorksheet s2 worksheet_name fun ws =>
          { ws with content :=
              applyWrites [] (renderDataFrame df start_row start_col) })
        (fun s2 => rfl), hsp1]
      rfl
    have hfw : findWorksheet (updateWorksheet
        (addWorksheetToSheet sh ⟨worksheet_name, 1000, 20, []⟩) worksheet_name
        fun ws =>
          { ws with content :=
              applyWrites [] (renderDataFrame df start_row start_col) })
        worksheet_name = some ⟨worksheet_name, 1000, 20,
          applyWrites [] (renderDataFrame df start_row start_col)⟩ := by
      rw [findWorksheet_update _ worksheet_name
          (fun ws =>
            { ws with
              content := applyWrites [] (renderDataFrame df start_row start_col) })
          (fun ws => rfl)]
      rw [show findWorksheet (addWorksheetToSheet sh ⟨worksheet_name, 1000, 20, []⟩)
          worksheet_name = some ⟨worksheet_name, 1000, 20, []⟩ from hadd]
      rfl
    exact ⟨_, _, hsp2, hfw, rfl, rfl⟩
  · intro hnone
    have hbody : upload_try_body env df credentials_file sheet_name worksheet_name
        start_row start_col = (env.world, Except.error UploadExc.spreadsheetNotFound) := by
      unfold upload_try_body
      simp only [h1, h2, h3, h4, hnone]
      simp
    refine ⟨hbody, ?_⟩
    unfold upload_to_google_sheets
    rw [hbody]
    simp [h1]

/-- Environment whose spreadsheet exists but holds no worksheets yet. -/
def autoCreateEnv : UploadEnv :=
  ⟨true, true, fun _ => true, [], fun _ => none, none, none, none, none,
    [⟨"Sheet", []⟩]⟩

/-- A one-column, one-row DataFrame used to instantiate the upload
theorems. -/
def sampleDf : DataFrame := ⟨[("a", [Cell.str "x"])]⟩

theorem upload_worksheet_autocreate_spreadsheet_not_witness :
    (upload_to_google_sheets autoCreateEnv sampleDf ["cred"] "Sheet" "WS" 1 1).2 =
      Except.ok true ∧
    ((findSpreadsheet
        (upload_to_google_sheets autoCreateEnv sampleDf ["cred"] "Sheet" "WS" 1 1).1
        "Sheet").bind (fun sh2 => findWorksheet sh2 "WS")).map
      (fun ws2 => (ws2.rowCap, ws2.colCap)) = some (1000, 20) ∧
    upload_try_body noSheetEnv sampleDf ["cred"] "Sheet" "WS" 1 1 =
      ([], Except.error UploadExc.spreadsheetNotFound) ∧
    upload_to_google_sheets noSheetEnv sampleDf ["cred"] "Sheet" "WS" 1 1 =
      ([], Except.ok false) := by
  have ha := (upload_worksheet_autocreate_spreadsheet_not autoCreateEnv sampleDf
    ["cred"] "Sheet" "WS" 1 1 ["cred"] rfl rfl rfl rfl rfl).1
    ⟨"Sheet", []⟩ rfl rfl rfl rfl rfl
  have hb := (upload_worksheet_autocreate_spreadsheet_not noSheetEnv sampleDf
    ["cred"] "Sheet" "WS" 1 1 ["cred"] rfl rfl rfl rfl rfl).2 rfl
  obtain ⟨hflag, sh2, ws2, hfs, hfw, hrow, hcol⟩ := ha
  refine ⟨hflag, ?_, hb.1, hb.2⟩
  rw [hfs]
  simp [hfw, hrow, hcol]

/-- Environment for the idempotence claim: one spreadsheet whose
worksheet already holds stale content. -/
def idemEnv : UploadEnv :=
  ⟨true, true, fun _ => true, [], fun _ => none, none, none, none, none,
    [⟨"Sheet", [⟨"WS", 5, 5, [((0, 0), "old")]⟩]⟩]⟩

/-- C6. Under a successful import, resolvable credentials, a present
spreadsheet, and no injected call failures, one publish run succeeds, and
running publish a second time with the same DataFrame and target on the
world the first run produced succeeds again and leaves that world exactly
as it was: clear-then-write makes the final worksheet content independent
of the prior state. -/
theorem upload_idempotent (env : UploadEnv) (df : DataFrame)
    (credentials_file : FsPath) (sheet_name worksheet_name : String)
    (start_row start_col : Nat)
    (h1 : env.gspreadImportOk = true) (h2 : env.gdfImportOk = true)
    (h3 : ∃ p, resolve_credentials env.fileExists env.cwd credentials_file = some p)
    (h4 : ∀ q, env.auth q = none) (h5 : env.openExc = none) (h6 : env.addWsExc = none)
    (h7 : env.clearExc = none) (h8 : env.writeExc = none)
    (h9 : ∃ sh, findSpreadsheet env.world sheet_name = some sh) :
    (upload_to_google_sheets env df credentials_file sheet_name worksheet_name
        start_row start_col).2 = Except.ok true ∧
    upload_to_google_sheets
        { env with world := (upload_to_google_sheets env df credentials_file
            sheet_name worksheet_name start_row start_col).1 }
        df credentials_file sheet_name worksheet_name start_row start_col =
      ((upload_to_google_sheets env df credentials_file sheet_name worksheet_name
          start_row start_col).1, Except.ok true) := by
  obtain ⟨p, hp⟩ := h3
  obtain ⟨sh, hsp⟩ := h9
  have hbody1 := upload_body_success env df credentials_file sheet_name worksheet_name
    start_row start_col p sh h1 h2 hp (h4 p) h5 h6 h7 h8 hsp
  have hup1 := upload_wrapper_ok env df credentials_file sheet_name worksheet_name
    start_row start_col _ true hbody1
  refine ⟨by rw [hup1], ?_⟩
  cases hws : findWorksheet sh worksheet_name with
  | some ws0 =>
    simp only [hws] at hbody1
    have hup := upload_wrapper_ok env df credentials_file sheet_name worksheet_name
      start_row start_col _ true hbody1
    rw [hup]
    have hsp2 : findSpreadsheet
        (updateSpreadsheet env.world sheet_name
          (fun s2 => updateWorksheet s2 worksheet_name fun ws =>
            { ws with
              content := applyWrites [] (renderDataFrame df start_row start_col) }))
        sheet_name = some (updateWorksheet sh worksheet_name fun ws =>
          { ws with
            content := applyWrites [] (renderDataFrame df start_row start_col) }) := by
      rw [findSpreadsheet_update env.world sheet_name
          (fun s2 => updateWorksheet s2 worksheet_name fun ws =>
            { ws with
              content := applyWrites [] (renderDataFrame df start_row start_col) })
          (fun s2 => rfl), hsp]
      rfl
    have hfw2 : findWorksheet (updateWorksheet sh worksheet_name fun ws =>
        { ws with
          content := applyWrites [] (renderDataFrame df start_row start_col) })
        worksheet_name = some
          { ws0 with
            content := applyWrites [] (renderDataFrame df start_row start_col) } := by
      rw [findWorksheet_update sh worksheet_name
          (fun ws =>
            { ws with
              content := applyWrites [] (renderDataFrame df start_row start_col) })
          (fun ws => rfl), hws]
      rfl
    have hfa : updateWorksheet (updateWorksheet sh worksheet_name fun ws =>
        { ws with
          content := applyWrites [] (renderDataFrame df start_row start_col) })
        worksheet_name (fun ws =>
          { ws with
            content := applyWrites [] (renderDataFrame df start_row start_col) }) =
        updateWorksheet sh worksheet_name fun ws =>
          { ws with
            content := applyWrites [] (renderDataFrame df start_row start_col) } :=
      (updateWorksheet_comp sh worksheet_name
        (fun ws =>
          { ws with
            content := applyWrites [] (renderDataFrame df start_row start_col) })
        (fun ws =>
          { ws with
            content := applyWrites [] (renderDataFrame df start_row start_col) })
        (fun ws => rfl)).trans rfl
    have hfix := updateSpreadsheet_fix
      (updateSpreadsheet env.world sheet_name
        (fun s2 => updateWorksheet s2 worksheet_name fun ws =>
          { ws with
            content := applyWrites [] (renderDataFrame df start_row start_col) }))
      sheet_name
      (fun s2 => updateWorksheet s2 worksheet_name fun ws =>
        { ws with
          content := applyWrites [] (renderDataFrame df start_row start_col) })
      (updateWorksheet sh worksheet_name fun ws =>
        { ws with
          content := applyWrites [] (renderDataFrame df start_row start_col) })
      hsp2 hfa
    have hb := upload_body_success
      { env with world := (updateSpreadsheet env.world sheet_name
          (fun s2 => updateWorksheet s2 worksheet_name fun ws =>
            { ws with
              content := applyWrites [] (renderDataFrame df start_row start_col) })) }
      df credentials_file sheet_name worksheet_name start_row start_col p
      (updateWorksheet sh worksheet_name fun ws =>
        { ws with
          content := applyWrites [] (renderDataFrame df start_row start_col) })
      h1 h2 hp (h4 p) h5 h6 h7 h8 hsp2
    simp only [hfw2] at hb
    rw [hfix] at hb
    exact upload_wrapper_ok _ df credentials_file sheet_name worksheet_name
      start_row start_col _ true hb
  | none =>
    simp only [hws] at hbody1
    have hup := upload_wrapper_ok env df credentials_file sheet_name worksheet_name
      start_row start_col _ true hbody1
    rw [hup]
    have hsp0 : findSpreadsheet
        (updateSpreadsheet env.world sheet_name
          (fun s2 => addWorksheetToSheet s2 ⟨worksheet_name, 1000, 20, []⟩))
        sheet_name = some (addWorksheetToSheet sh ⟨worksheet_name, 1000, 20, []⟩) := by
      rw [findSpreadsheet_update env.world sheet_name
          (fun s2 => addWorksheetToSheet s2 ⟨worksheet_name, 1000, 20, []⟩)
          (fun s2 => rfl), hsp]
      rfl
    have hsp2 : findSpreadsheet
        (updateSpreadsheet
          (updateSpreadsheet env.world sheet_name
            (fun s2 => addWorksheetToSheet s2 ⟨worksheet_name, 1000, 20, []⟩))
          sheet_name
          (fun s2 => updateWorksheet s2 worksheet_name fun ws =>
            { ws with
              content := applyWrites [] (renderDataFrame df start_row start_col) }))
        sheet_name = some (updateWorksheet
          (addWorksheetToSheet sh ⟨worksheet_name, 1000, 20, []⟩) worksheet_name
          fun ws =>
            { ws with
              content := applyWrites [] (renderDataFrame df start_row start_col) }) := by
      rw [findSpreadsheet_update _ sheet_name
          (fun s2 => updateWorksheet s2 worksheet_name fun ws =>
            { ws with
              content := applyWrites [] (renderDataFrame df start_row start_col) })
          (fun s2 => rfl), hsp0]
      rfl
    have hadd := findWorksheet_add sh ⟨worksheet_name, 1000, 20, []⟩ hws
    have hfw2 : findWorksheet (updateWorksheet
        (addWorksheetToSheet sh ⟨worksheet_name, 1000, 20, []⟩) worksheet_name
        fun ws =>
          { ws with
            content := applyWrites [] (renderDataFrame df start_row start_col) })
        worksheet_name = some
          ⟨worksheet_name, 1000, 20,
            applyWrites [] (renderDataFrame df start_row start_col)⟩ := by
      rw [findWorksheet_update _ worksheet_name
          (fun ws =>
            { ws with
              content := applyWrites [] (renderDataFrame df start_row start_col) })
          (fun ws => rfl)]
      rw [show findWorksheet (addWorksheetToSheet sh ⟨worksheet_name, 1000, 20, []⟩)
          worksheet_name = some ⟨worksheet_name, 1000, 20, []⟩ from hadd]
      rfl
    have hfa : updateWorksheet (updateWorksheet
        (addWorksheetToSheet sh ⟨worksheet_name, 1000, 20, []⟩) worksheet_name
        fun ws =>
          { ws with
            content := applyWrites [] (renderDataFrame df start_row start_col) })
        worksheet_name (fun ws =>
          { ws with
            content := applyWrites [] (renderDataFrame df start_row start_col) }) =
        updateWorksheet (addWorksheetToSheet sh ⟨worksheet_name, 1000, 20, []⟩)
          worksheet_name fun ws =>
            { ws with
              content := applyWrites [] (renderDataFrame df start_row start_col) } :=
      (updateWorksheet_comp (addWorksheetToSheet sh ⟨worksheet_name, 1000, 20, []⟩)
        worksheet_name
        (fun ws =>
          { ws with
            content := applyWrites [] (renderDataFrame df start_row start_col) })
        (fun ws =>
          { ws with
            content := applyWrites [] (renderDataFrame df start_row start_col) })
        (fun ws => rfl)).trans rfl
    have hfix := updateSpreadsheet_fix
      (updateSpreadsheet
        (updateSpreadsheet env.world sheet_name
          (fun s2 => addWorksheetToSheet s2 ⟨worksheet_name, 1000, 20, []⟩))
        sheet_name
        (fun s2 => updateWorksheet s2 worksheet_name fun ws =>
          { ws with
            content := applyWrites [] (renderDataFrame df start_row start_col) }))
      sheet_name
      (fun s2 => updateWorksheet s2 worksheet_name fun ws =>
        { ws with
          content := applyWrites [] (renderDataFrame df start_row start_col) })
      (updateWorksheet (addWorksheetToSheet sh ⟨worksheet_name, 1000, 20, []⟩)
        worksheet_name fun ws =>
          { ws with
            content := applyWrites [] (renderDataFrame df start_row start_col) })
      hsp2 hfa
    have hb := upload_body_success
      { env with world := (updateSpreadsheet
          (updateSpreadsheet env.world sheet_name
            (fun s2 => addWorksheetToSheet s2 ⟨worksheet_name, 1000, 20, []⟩))
          sheet_name
          (fun s2 => updateWorksheet s2 worksheet_name fun ws =>
            { ws with
              content := applyWrites [] (renderDataFrame df start_row start_col) })) }
      df credentials_file sheet_name worksheet_name start_row start_col p
      (updateWorksheet (addWorksheetToSheet sh ⟨worksheet_name, 1000, 20, []⟩)
        worksheet_name fun ws =>
          { ws with
            content := applyWrites [] (renderDataFrame df start_row start_col) })
      h1 h2 hp (h4 p) h5 h6 h7 h8 hsp2
    simp only [hfw2] at hb
    rw [hfix] at hb
    exact upload_wrapper_ok _ df credentials_file sheet_name worksheet_name
      start_row start_col _ true hb

theorem upload_idempotent_witness :
    (upload_to_google_sheets idemEnv sampleDf ["cred"] "Sheet" "WS" 1 1).2 =
      Except.ok true ∧
    upload_to_google_sheets
        { idemEnv with world := (upload_to_google_sheets idemEnv sampleDf ["cred"]
            "Sheet" "WS" 1 1).1 }
        sampleDf ["cred"] "Sheet" "WS" 1 1 =
      ((upload_to_google_sheets idemEnv sampleDf ["cred"] "Sheet" "WS" 1 1).1,
        Except.ok true) :=
  upload_idempotent idemEnv sampleDf ["cred"] "Sheet" "WS" 1 1 rfl rfl
    ⟨["cred"], rfl⟩ (fun _ => rfl) rfl rfl rfl rfl
    ⟨⟨"Sheet", [⟨"WS", 5, 5, [((0, 0), "old")]⟩]⟩, rfl⟩
